import Mathlib

/-
Verification of the flights-analyzer feeder pipeline (mateuszdyminski/flights-analyzer).

This file gives a shallow embedding of the Go feeder package (feeder/feeder.go and the
neo4j dao in the main/dao files) and proves properties of its route/price fan-out stages,
its day-range generation, its error aggregation and its pipeline orchestration.

Modelling conventions:
- float64 fields (prices, rates, coordinates) are modelled as rationals; the arithmetic
  appearing in the verified scenarios (100 * 4.3 = 430.0) is exact in IEEE float64, so
  the rational model agrees with the Go computation at every value used here.
- time.Time / time.Duration are modelled as Int nanoseconds.  Go's
  int(duration.Hours()/24) truncates toward zero; it is modelled as Int.tdiv by the
  nanoseconds of one day (exact for the whole-day durations the claims quantify over).
- Go maps are modelled as association lists; a read of a missing key yields the zero
  value, exactly as in Go.
- Network, storage and JSON decoding are modelled as oracle parameters: each fetch
  of a worker is given an outcome (request-build error, transport error, bad status,
  decode error, or a decoded payload), and each dao call is given a success flag.
- Channels: the work channels are modelled by the list of items a worker receives;
  errc (a single-slot buffered error channel, closed only after all workers finished)
  is modelled by its slot state; a send on a full slot never returns, so a run that
  terminates performs at most one successful send, which the model makes explicit.
-/

namespace FlightsAnalyzer

/-! Entity model (feeder.go, types Airport/Country/Route/Flight/Outbound/Price). -/

/-- Country (feeder.go): code, name, currency. -/
structure Country where
  code : String
  name : String
  currency : String
deriving DecidableEq, Repr

mutual

/-- Airport (feeder.go): ID is the store-assigned identifier (zero until Insert),
Iata the key of the airport index, Destinations the routes fetched for it. -/
inductive Airport : Type where
  | mk (id : Int) (iata : String) (name : String) (lat : ℚ) (long : ℚ)
      (country : Country) (destinations : List Route) : Airport

/-- Route (feeder.go): decoded IataFrom/IataTo plus resolved From/To Airport values
(zero-valued until the route stage resolves them against the index). -/
inductive Route : Type where
  | mk (iataFrom : String) (iataTo : String) (fromAp : Airport) (toAp : Airport) : Route

end

def Airport.id : Airport → Int
  | .mk i _ _ _ _ _ _ => i

def Airport.iata : Airport → String
  | .mk _ s _ _ _ _ _ => s

def Airport.country : Airport → Country
  | .mk _ _ _ _ _ c _ => c

def Airport.destinations : Airport → List Route
  | .mk _ _ _ _ _ _ d => d

/-- dao.Insert writes the created node id into the airport (a.ID = n.Id()). -/
def Airport.setId : Airport → Int → Airport
  | .mk _ s n la lo c d, i => .mk i s n la lo c d

/-- dec.Decode(&a.Destinations) replaces the airport's destination list. -/
def Airport.setDestinations : Airport → List Route → Airport
  | .mk i s n la lo c _, d => .mk i s n la lo c d

/-- The zero value of Airport, as produced by a Go map miss or by JSON decoding
a payload that does not mention the field. -/
def Airport.zero : Airport := .mk 0 "" "" 0 0 ⟨"", "", ""⟩ []

def Route.iataFrom : Route → String
  | .mk s _ _ _ => s

def Route.iataTo : Route → String
  | .mk _ s _ _ => s

def Route.fromAp : Route → Airport
  | .mk _ _ f _ => f

def Route.toAp : Route → Airport
  | .mk _ _ _ t => t

def Route.setFrom : Route → Airport → Route
  | .mk a b _ t, f => .mk a b f t

def Route.setTo : Route → Airport → Route
  | .mk a b f _, t => .mk a b f t

/-- SimpleAiport (feeder.go, the source's spelling): ID, Iata, Name. -/
structure SimpleAiport where
  id : Int
  iata : String
  name : String
deriving DecidableEq, Repr

/-- Price (feeder.go): raw Value, derived ValueExchanged, currency symbol. -/
structure Price where
  value : ℚ
  valueExchanged : ℚ
  currency : String
deriving DecidableEq, Repr

/-- Outbound (feeder.go): origin/destination summaries, price, flight dates. -/
structure Outbound where
  fromAp : SimpleAiport
  toAp : SimpleAiport
  price : Price
  dateFrom : Int
  dateTo : Int
deriving DecidableEq, Repr

/-- Flight (feeder.go) wraps one Outbound leg.  The Flights wrapper struct is
modelled directly as the List Flight it carries. -/
structure Flight where
  outbound : Outbound
deriving DecidableEq, Repr

/-! Go map model: association list; read of a missing key yields the zero value. -/

def mapFind {α : Type} : List (String × α) → String → Option α
  | [], _ => none
  | p :: rest, k => if p.1 = k then some p.2 else mapFind rest k

def mapSet {α : Type} : List (String × α) → String → α → List (String × α)
  | [], k, v => [(k, v)]
  | p :: rest, k, v => if p.1 = k then (k, v) :: rest else p :: mapSet rest k v

/-- Go read `f.airports[k]`: zero value on a miss. -/
def idxGet (m : List (String × Airport)) (k : String) : Airport :=
  (mapFind m k).getD Airport.zero

/-- Go two-valued read `_, ok := f.airports[k]`. -/
def idxMem (m : List (String × Airport)) (k : String) : Bool :=
  (mapFind m k).isSome

/-- Every airport stored in the index carries a store-assigned (nonzero) identifier. -/
def idxAllValid (m : List (String × Airport)) : Prop :=
  ∀ p ∈ m, Airport.id p.2 ≠ 0

/-! Error taxonomy (spec section 7) as produced by the workers (feeder.go). -/

/-- The error kinds a worker can send on errc: request build, transport, http
status, JSON decode, dao storage, and the per-flight missing-rate lookup. -/
inductive WErr : Type where
  | build
  | transport
  | status (s : String)
  | decode
  | storage
  | rateLookup
deriving DecidableEq, Repr

/-- Observable http response-body events of one fetch, used to check that the
body is closed on each exit path. -/
inductive HttpEv : Type where
  | respReceived
  | bodyClosed
deriving DecidableEq, Repr

/-- Outcome oracle of one GET+decode: how http.NewRequest / client.Do /
resp.Status / dec.Decode behave on that call. -/
inductive FetchOut (α : Type) : Type where
  | buildErr
  | transportErr
  | statusErr (s : String)
  | decodeErr
  | ok (payload : α)

/-! genDays (feeder.go lines 289-298). -/

/-- Nanoseconds of 24*time.Hour. -/
def nsPerDay : Int := 86400000000000

/-- genDays (feeder.go): appends from.Add(i*24h) for i = 0 .. int(duration.Hours()/24).
The Go float truncation int(duration.Hours()/24) is modelled as truncating integer
division of the nanosecond duration (exact on whole-day durations). -/
def genDays (fromT toT : Int) : List Int :=
  let duration := toT - fromT
  let bound := Int.tdiv duration nsPerDay
  if bound < 0 then []
  else (List.range (bound.toNat + 1)).map (fun (i : Nat) => fromT + (i : Int) * nsPerDay)

/-! Airport stage (fetchAirports, feeder.go lines 92-130): the insert loop. -/

/-- The loop of fetchAirports over the decoded airport list: dao.Insert stamps the
store id (or fails the stage), then the airport is put into the index. -/
def fetchAirportsLoop (insA : Airport → Except WErr Int) :
    List Airport → List (String × Airport) → Except WErr (List (String × Airport))
  | [], idx => .ok idx
  | a :: rest, idx =>
    match insA a with
    | .error e => .error e
    | .ok i => fetchAirportsLoop insA rest (mapSet idx a.iata (a.setId i))

/-! Route stage worker (fetchAirportRoutes, feeder.go lines 183-233). -/

/-- Lines 212-219: Destinations[i].From = airports[a.Iata]; then, when IataFrom is
present in the index (the guard the source really checks), To = airports[IataTo]
(zero value if IataTo is missing). -/
def resolveOne (idx : List (String × Airport)) (originIata : String) (r : Route) : Route :=
  let r1 := r.setFrom (idxGet idx originIata)
  if idxMem idx r1.iataFrom then r1.setTo (idxGet idx r1.iataTo) else r1

def resolveRoutes (idx : List (String × Airport)) (originIata : String)
    (ds : List Route) : List Route :=
  ds.map (resolveOne idx originIata)

/-- State a route worker reads/writes: the shared airport index, the shared global
destination list, the count of progress messages sent on c, and the sequence of
errors it sent on errc. -/
structure RouteWorkerSt where
  idx : List (String × Airport)
  dests : List Route
  msgs : Nat
  errs : List WErr

/-- One iteration of the fetchAirportRoutes loop body for airport a.  Returns the
updated state, whether the worker keeps consuming (break = false), and the
response-body events of this iteration.  Faithful points: a bad status closes the
body, a decode failure does NOT (the Close call sits after the error check, no
defer); a storage error is sent on errc but does NOT break the loop. -/
def routeWorkerStep (fetchO : Airport → FetchOut (List Route))
    (insRoutesOk : Int → List Route → Bool) (a : Airport) (st : RouteWorkerSt) :
    RouteWorkerSt × Bool × List HttpEv :=
  match fetchO a with
  | .buildErr => ({ st with errs := st.errs ++ [WErr.build] }, false, [])
  | .transportErr => ({ st with errs := st.errs ++ [WErr.transport] }, false, [])
  | .statusErr s =>
    ({ st with errs := st.errs ++ [WErr.status s] }, false,
      [HttpEv.respReceived, HttpEv.bodyClosed])
  | .decodeErr =>
    ({ st with errs := st.errs ++ [WErr.decode] }, false, [HttpEv.respReceived])
  | .ok ds =>
    let resolved := resolveRoutes st.idx a.iata ds
    let a' := a.setDestinations resolved
    let errs' := if insRoutesOk a.id resolved then st.errs else st.errs ++ [WErr.storage]
    ({ idx := mapSet st.idx a.iata a',
       dests := st.dests ++ resolved,
       msgs := st.msgs + 1,
       errs := errs' }, true, [HttpEv.respReceived, HttpEv.bodyClosed])

/-- A route worker consuming its share of the airports channel: runs steps until a
step breaks, and returns the final state together with the items it did not pull. -/
def routeWorker (fetchO : Airport → FetchOut (List Route))
    (insRoutesOk : Int → List Route → Bool) :
    List Airport → RouteWorkerSt → RouteWorkerSt × List Airport
  | [], st => (st, [])
  | a :: rest, st =>
    let step := routeWorkerStep fetchO insRoutesOk a st
    if step.2.1 then routeWorker fetchO insRoutesOk rest step.1 else (step.1, rest)

/-! Price stage worker (fetchPricesInWorker, feeder.go lines 300-354). -/

/-- The flight loop (lines 331-344): per flight, look up the rate of the route
origin's currency; on a miss send an error and continue (the flight is left
exactly as decoded); on a hit write the exchanged price and stamp the store ids
of both endpoints from the resolved route.  Returns the updated flight list and
the number of rate-lookup errors sent. -/
def exchangeFlights (rates : List (String × ℚ)) (r : Route) :
    List Flight → List Flight × Nat
  | [] => ([], 0)
  | fl :: rest =>
    let done := exchangeFlights rates r rest
    match mapFind rates r.fromAp.country.currency with
    | none => (fl :: done.1, done.2 + 1)
    | some rate =>
      let o := fl.outbound
      let o' : Outbound :=
        { o with
          price := { o.price with valueExchanged := o.price.value * rate },
          fromAp := { o.fromAp with id := r.fromAp.id },
          toAp := { o.toAp with id := r.toAp.id } }
      (⟨o'⟩ :: done.1, done.2)

/-- The per-flight update on the rate-hit path, as performed by exchangeFlights. -/
def stampFlight (rate : ℚ) (r : Route) (fl : Flight) : Flight :=
  ⟨{ fl.outbound with
      price := { fl.outbound.price with valueExchanged := fl.outbound.price.value * rate },
      fromAp := { fl.outbound.fromAp with id := r.fromAp.id },
      toAp := { fl.outbound.toAp with id := r.toAp.id } }⟩

/-- State a price worker accumulates: the FetchResult counts sent on c, the errors
sent on errc, and the InsertFlights calls (origin store id, flight batch). -/
structure PriceWorkerSt where
  msgs : List Nat
  errs : List WErr
  inserted : List (Int × List Flight)

/-- One (route, day) iteration of fetchPricesInWorker.  Returns the updated state,
whether the day loop keeps going (break = false), and the body events.  Faithful
points: a decode failure does not close the body; rate-lookup misses are sent on
errc inside the flight loop; InsertFlights is called with the whole batch in every
non-error path, and its failure breaks (only) the day loop. -/
def priceDayStep (fetchO : Route → Int → FetchOut (List Flight))
    (insFlightsOk : Int → List Flight → Bool) (rates : List (String × ℚ))
    (r : Route) (d : Int) (st : PriceWorkerSt) : PriceWorkerSt × Bool × List HttpEv :=
  match fetchO r d with
  | .buildErr => ({ st with errs := st.errs ++ [WErr.build] }, false, [])
  | .transportErr => ({ st with errs := st.errs ++ [WErr.transport] }, false, [])
  | .statusErr s =>
    ({ st with errs := st.errs ++ [WErr.status s] }, false,
      [HttpEv.respReceived, HttpEv.bodyClosed])
  | .decodeErr =>
    ({ st with errs := st.errs ++ [WErr.decode] }, false, [HttpEv.respReceived])
  | .ok fls =>
    let ex := exchangeFlights rates r fls
    let st1 := { st with
      errs := st.errs ++ List.replicate ex.2 WErr.rateLookup,
      inserted := st.inserted ++ [(r.fromAp.id, ex.1)] }
    if insFlightsOk r.fromAp.id ex.1 then
      ({ st1 with msgs := st1.msgs ++ [ex.1.length] }, true,
        [HttpEv.respReceived, HttpEv.bodyClosed])
    else
      ({ st1 with errs := st1.errs ++ [WErr.storage] }, false,
        [HttpEv.respReceived, HttpEv.bodyClosed])

/-- The inner day loop of fetchPricesInWorker for one route: a break abandons only
the remaining days of this route. -/
def priceRouteLoop (fetchO : Route → Int → FetchOut (List Flight))
    (insFlightsOk : Int → List Flight → Bool) (rates : List (String × ℚ))
    (r : Route) : List Int → PriceWorkerSt → PriceWorkerSt
  | [], st => st
  | d :: ds, st =>
    let step := priceDayStep fetchO insFlightsOk rates r d st
    if step.2.1 then priceRouteLoop fetchO insFlightsOk rates r ds step.1 else step.1

/-- A price worker consuming its share of the routes channel.  The outer loop has
no break: the worker runs the day loop of every route it receives, and the second
component (items left unconsumed) is always empty. -/
def priceWorker (fetchO : Route → Int → FetchOut (List Flight))
    (insFlightsOk : Int → List Flight → Bool) (rates : List (String × ℚ))
    (days : List Int) : List Route → PriceWorkerSt → PriceWorkerSt × List Route
  | [], st => (st, [])
  | r :: rest, st =>
    priceWorker fetchO insFlightsOk rates days rest
      (priceRouteLoop fetchO insFlightsOk rates r days st)

/-! Error aggregation (fetchRoutes lines 145-176, fetchPrices lines 247-285):
errc := make(chan error, 1), closed after wg.Wait(), drained after the result
channel is exhausted. -/

/-- The single-slot errc processing the workers' sends in order.  A send on an
empty slot stores the error; a send on a full slot blocks forever (the drain
cannot start while a worker is blocked, since close follows wg.Wait()), so the
whole run fails to terminate: modelled as none. -/
def errcSendAll : Option WErr → List WErr → Option (Option WErr)
  | slot, [] => some slot
  | none, e :: es => errcSendAll (some e) es
  | some _, _ :: _ => none

/-- The drain loop `for e := range errc { errors++; err = e }` over the elements
left in the closed channel: the error count and the last (kept) error. -/
def errcDrain (slot : Option WErr) : Nat × Option WErr :=
  (slot.toList.length, slot.toList.foldl (fun _ e => some e) none)

/-- Stage result of fetchRoutes / fetchPrices as a function of the sequence
of errc sends of the whole run: none when the run never terminates, otherwise
the kept error (returned iff non-nil). -/
def stageError (es : List WErr) : Option (Option WErr) :=
  (errcSendAll none es).map (fun slot => (errcDrain slot).2)

/-- fetchPrices' aggregate view: the errors counter and the returned error. -/
def fetchPricesAgg (es : List WErr) : Option (Nat × Option WErr) :=
  (errcSendAll none es).map errcDrain

/-! Pipeline orchestration (Start, feeder.go lines 67-89). -/

/-- The five stages Start can run. -/
inductive Stage : Type where
  | clearStore
  | airports
  | routes
  | rates
  | prices
deriving DecidableEq, Repr

/-- The fixed order Start attempts the stages in: clearDB only when configured,
then the four fetch stages. -/
def pipelineOrder (clearDb : Bool) : List Stage :=
  (if clearDb then [Stage.clearStore] else []) ++
    [Stage.airports, Stage.routes, Stage.rates, Stage.prices]

/-- Running the stages in sequence; a failing stage log.Fatalf-s, so the trace
stops with it and nothing later runs. -/
def runStages (outcome : Stage → Bool) : List Stage → List Stage × Bool
  | [] => ([], true)
  | s :: ss =>
    if outcome s then ((runStages outcome ss).1.cons s, (runStages outcome ss).2)
    else ([s], false)

/-- Start (feeder.go): the executed stage trace and whether the run completed. -/
def startModel (clearDb : Bool) (outcome : Stage → Bool) : List Stage × Bool :=
  runStages outcome (pipelineOrder clearDb)

/-! Concrete scenario values (spec section 8): index AAA (currency EUR) and
BBB (currency PLN), destinations of AAA = one AAA to BBB pair, exchange rates
containing EUR at 4.3, one flight priced 100 EUR. -/

/-- Airport AAA of the scenario, already persisted with store id 1. -/
def apAAA : Airport := Airport.mk 1 "AAA" "Alpha" 0 0 ⟨"AL", "Aland", "EUR"⟩ []

/-- Airport BBB of the scenario, already persisted with store id 2. -/
def apBBB : Airport := Airport.mk 2 "BBB" "Beta" 0 0 ⟨"BL", "Betaland", "PLN"⟩ []

/-- The airport index of the scenario. -/
def idxAB : List (String × Airport) := [("AAA", apAAA), ("BBB", apBBB)]

/-- The decoded (unresolved) AAA to BBB route of the scenario. -/
def routeAB0 : Route := Route.mk "AAA" "BBB" Airport.zero Airport.zero

/-- The AAA to BBB route after the route stage resolved it against the index. -/
def routeAB : Route := resolveOne idxAB "AAA" routeAB0

/-- A second route, used to feed a worker two routes. -/
def routeAC : Route :=
  Route.mk "AAA" "CCC" apAAA (Airport.mk 3 "CCC" "Gamma" 0 0 ⟨"GL", "Gland", "EUR"⟩ [])

/-- The scenario's single decoded flight: priced 100 EUR, nothing exchanged or
stamped yet. -/
def flight100 : Flight :=
  ⟨⟨⟨0, "AAA", "Alpha"⟩, ⟨0, "BBB", "Beta"⟩, ⟨100, 0, "EUR"⟩, 0, 0⟩⟩

/-- The scenario's rate table: EUR at 4.3 (exactly representable as 43/10; the
float64 product 100 * 4.3 rounds to exactly 430.0, so the rational model agrees). -/
def ratesEUR : List (String × ℚ) := [("EUR", 43/10)]

/-- Fetch oracle answering every (route, day) price query with the single
scenario flight. -/
def alwaysFlight100 : Route → Int → FetchOut (List Flight) :=
  fun _ _ => FetchOut.ok [flight100]

/-- Fetch oracle that fails the AAA to BBB route with a 500 status and answers
every other route with the single scenario flight. -/
def statusOnAB : Route → Int → FetchOut (List Flight) :=
  fun r _ =>
    if r.iataTo = "BBB" then FetchOut.statusErr "500 Internal Server Error"
    else FetchOut.ok [flight100]

/-- A dao oracle that accepts every insert. -/
def insAlwaysOk : Int → List Flight → Bool := fun _ _ => true

/-! Small projection lemmas for the mutual Airport/Route inductives. -/

@[simp] lemma Airport.id_setId (a : Airport) (i : Int) : (a.setId i).id = i := by
  cases a; rfl

@[simp] lemma Airport.id_setDestinations (a : Airport) (d : List Route) :
    (a.setDestinations d).id = a.id := by
  cases a; rfl

@[simp] lemma Route.iataFrom_setFrom (r : Route) (x : Airport) :
    (r.setFrom x).iataFrom = r.iataFrom := by
  cases r; rfl

@[simp] lemma Route.iataTo_setFrom (r : Route) (x : Airport) :
    (r.setFrom x).iataTo = r.iataTo := by
  cases r; rfl

@[simp] lemma Route.toAp_setFrom (r : Route) (x : Airport) :
    (r.setFrom x).toAp = r.toAp := by
  cases r; rfl

@[simp] lemma Route.toAp_setTo (r : Route) (x : Airport) : (r.setTo x).toAp = x := by
  cases r; rfl

/-- A missing key reads as the zero value. -/
lemma idxGet_of_not_mem (m : List (String × Airport)) (k : String)
    (h : idxMem m k = false) : idxGet m k = Airport.zero := by
  unfold idxMem at h
  unfold idxGet
  cases hf : mapFind m k with
  | none => rfl
  | some a => rw [hf] at h; simp at h

/-! Theorems for the claims. -/

/-- Claim C3: for every pair of dates with start at most end (whole calendar days
apart, as dates are), the day sequence generated by genDays has exactly
(whole days between them) + 1 entries, its i-th entry is start + i days (hence it
is strictly increasing by one calendar day), and it contains both endpoints; with
start = end (d = 0) it has exactly one entry. -/
theorem c3_genDays_day_sequence (fromT toT : Int) (d : Nat)
    (h : toT - fromT = (d : Int) * nsPerDay) :
    (genDays fromT toT).length = d + 1
    ∧ (∀ i : Nat, i < d + 1 →
        (genDays fromT toT).getD i 0 = fromT + (i : Int) * nsPerDay)
    ∧ (∀ i : Nat, i + 1 < d + 1 →
        (genDays fromT toT).getD (i + 1) 0 = (genDays fromT toT).getD i 0 + nsPerDay)
    ∧ (genDays fromT toT).getD 0 0 = fromT
    ∧ (genDays fromT toT).getD d 0 = toT := by
  have hns : nsPerDay ≠ 0 := by norm_num [nsPerDay]
  have hb : Int.tdiv (toT - fromT) nsPerDay = (d : Int) := by
    rw [h]; exact Int.mul_tdiv_cancel _ hns
  have hg : genDays fromT toT
      = (List.range (d + 1)).map (fun (i : Nat) => fromT + (i : Int) * nsPerDay) := by
    have hz : genDays fromT toT
        = if Int.tdiv (toT - fromT) nsPerDay < 0 then []
          else (List.range ((Int.tdiv (toT - fromT) nsPerDay).toNat + 1)).map
            (fun (i : Nat) => fromT + (i : Int) * nsPerDay) := rfl
    rw [hz, hb]
    simp
  have hget : ∀ i : Nat, i < d + 1 →
      (genDays fromT toT).getD i 0 = fromT + (i : Int) * nsPerDay := by
    intro i hi
    rw [hg]
    simp [List.getD_eq_getElem?_getD, List.getElem?_map, List.getElem?_range, hi]
  refine ⟨?_, hget, ?_, ?_, ?_⟩
  · rw [hg]; simp
  · intro i hi
    rw [hget (i + 1) hi, hget i (by omega)]
    push_cast
    ring
  · have := hget 0 (by omega)
    simpa using this
  · rw [hget d (by omega)]
    omega

/-- Witness for C3 at a concrete two-day range. -/
theorem c3_genDays_day_sequence_witness :
    ((2 : Int) * nsPerDay - 0 = (2 : Nat) * nsPerDay)
    ∧ (genDays 0 (2 * nsPerDay)).length = 2 + 1
    ∧ (genDays 0 (2 * nsPerDay)).getD 0 0 = 0
    ∧ (genDays 0 (2 * nsPerDay)).getD 2 0 = 2 * nsPerDay := by
  have hc := c3_genDays_day_sequence 0 (2 * nsPerDay) 2 (by push_cast; ring)
  exact ⟨by push_cast; ring, hc.1, hc.2.2.2.1, hc.2.2.2.2⟩

/-- Claim C6: in every terminating fan-out stage run with at least one error
recorded on the single-slot error channel, the drain loop of fetchRoutes /
fetchPrices returns exactly the first recorded error: a second successful send
cannot happen in a terminating run (the sender would block forever on the full
slot, and errc is only drained after every worker has finished), so the slot
holds exactly the first error and the keep-last drain returns it. -/
theorem c6_first_recorded_error_returned (es : List WErr) (res : Option WErr)
    (h : stageError es = some res) (hne : es ≠ []) :
    res = es.head? ∧ res.isSome = true := by
  match es, hne with
  | e :: es', _ =>
    match es' with
    | [] =>
      simp [stageError, errcSendAll, errcDrain] at h
      subst h
      simp
    | e2 :: es'' =>
      simp [stageError, errcSendAll] at h

/-- Witness for C6: a run whose single recorded error is a decode error. -/
theorem c6_first_recorded_error_returned_witness :
    stageError [WErr.decode] = some (some WErr.decode)
    ∧ (some WErr.decode = [WErr.decode].head?
        ∧ (some WErr.decode).isSome = true) := by
  refine ⟨by decide, c6_first_recorded_error_returned [WErr.decode] (some WErr.decode)
    (by decide) (by decide)⟩

/-- Claim C5 (the code contradicts it): the Go source closes the response body on
the success and bad-status paths of both workers, but on a JSON decode failure
both fetchAirportRoutes and fetchPricesInWorker break out of the loop before the
resp.Body.Close() call (there is no defer there), so the body is not closed on
that exit path.  The first two conjuncts evaluate the two workers at a
decode-failing fetch and show no close event; the last two show the close event
that the status-error and success paths do emit. -/
theorem c5_body_not_closed_on_decode_failure :
    HttpEv.bodyClosed ∉ (routeWorkerStep (fun _ => FetchOut.decodeErr)
      (fun _ _ => true) Airport.zero ⟨[], [], 0, []⟩).2.2
    ∧ HttpEv.bodyClosed ∉ (priceDayStep (fun _ _ => FetchOut.decodeErr)
      (fun _ _ => true) [] routeAB0 0 ⟨[], [], []⟩).2.2
    ∧ HttpEv.bodyClosed ∈ (routeWorkerStep (fun _ => FetchOut.statusErr "404 Not Found")
      (fun _ _ => true) Airport.zero ⟨[], [], 0, []⟩).2.2
    ∧ HttpEv.bodyClosed ∈ (priceDayStep (fun _ _ => FetchOut.ok [])
      insAlwaysOk [] routeAB0 0 ⟨[], [], []⟩).2.2 := by
  decide

/-- On a rate-table miss for the route origin currency the flight loop touches no
flight and sends one rate-lookup error per flight. -/
lemma exchangeFlights_miss (rates : List (String × ℚ)) (r : Route)
    (h : mapFind rates r.fromAp.country.currency = none) :
    ∀ fls : List Flight, exchangeFlights rates r fls = (fls, fls.length) := by
  intro fls
  induction fls with
  | nil => rfl
  | cons fl rest ih => simp [exchangeFlights, h, ih]

/-- On a rate-table hit every flight of the batch is exchanged and stamped, and no
error is sent. -/
lemma exchangeFlights_hit (rates : List (String × ℚ)) (r : Route) (rate : ℚ)
    (h : mapFind rates r.fromAp.country.currency = some rate) :
    ∀ fls : List Flight,
      exchangeFlights rates r fls = (fls.map (stampFlight rate r), 0) := by
  intro fls
  induction fls with
  | nil => rfl
  | cons fl rest ih => simp [exchangeFlights, h, ih, stampFlight]

/-- Claim C1 as amended: a missing rate for the route-origin currency skips only
the affected flights' exchanged-price computation (and their identifier
stamping), the full batch including those flights is still passed to
InsertFlights and the worker carries on, and the error is counted by the
aggregator — but, contrary to the original claim, the error is sent on the
stage error channel and, when it is the recorded error, fetchPrices returns it
as the stage result exactly like the fatal kinds. -/
theorem c1_rate_lookup_recovery (rates : List (String × ℚ)) (r : Route)
    (fls : List Flight) (h : mapFind rates r.fromAp.country.currency = none) :
    exchangeFlights rates r fls = (fls, fls.length)
    ∧ (∀ fetchO insOk d st, fetchO r d = FetchOut.ok fls →
        insOk r.fromAp.id fls = true →
        priceDayStep fetchO insOk rates r d st
          = ({ msgs := st.msgs ++ [fls.length],
               errs := st.errs ++ List.replicate fls.length WErr.rateLookup,
               inserted := st.inserted ++ [(r.fromAp.id, fls)] }, true,
              [HttpEv.respReceived, HttpEv.bodyClosed]))
    ∧ fetchPricesAgg [WErr.rateLookup] = some (1, some WErr.rateLookup) := by
  refine ⟨exchangeFlights_miss rates r h fls, ?_, by decide⟩
  intro fetchO insOk d st hf hins
  simp [priceDayStep, hf, exchangeFlights_miss rates r h fls, hins]

/-- Witness for C1 at the concrete scenario: empty rate table, the resolved AAA
to BBB route and the single decoded flight. -/
theorem c1_rate_lookup_recovery_witness :
    mapFind ([] : List (String × ℚ)) routeAB.fromAp.country.currency = none
    ∧ exchangeFlights [] routeAB [flight100] = ([flight100], [flight100].length)
    ∧ fetchPricesAgg [WErr.rateLookup] = some (1, some WErr.rateLookup) := by
  have hc := c1_rate_lookup_recovery [] routeAB [flight100] rfl
  exact ⟨rfl, hc.1, hc.2.2⟩

/-- Counterexample to C1 as stated: a concrete terminating price-stage run whose
only recorded error is the rate-lookup miss still persists the batch, and the
stage aggregation of fetchPrices returns that RateLookupError (count 1, result
some rateLookup) as the stage result, which the claim denies. -/
theorem c1_rate_lookup_stage_result_cex :
    (priceWorker alwaysFlight100 insAlwaysOk [] [0] [routeAB] ⟨[], [], []⟩).1.errs
      = [WErr.rateLookup]
    ∧ (priceWorker alwaysFlight100 insAlwaysOk [] [0] [routeAB] ⟨[], [], []⟩).1.inserted
      = [(1, [flight100])]
    ∧ fetchPricesAgg
        (priceWorker alwaysFlight100 insAlwaysOk [] [0] [routeAB] ⟨[], [], []⟩).1.errs
      = some (1, some WErr.rateLookup) := by
  refine ⟨by decide, by decide, by decide⟩

/-- Claim C2 as amended: in the Route Stage a request-build, transport, status or
decode error is sent on errc and ends the worker's consumption loop with the
rest of the channel unconsumed, but a storage error, while sent on errc, does
not stop the worker; and in the Price Stage an error only breaks the inner day
loop — the worker always consumes every route it receives (its unconsumed list
is always empty). -/
theorem c2_worker_error_scopes :
    (∀ fetchO insOk a st rest,
      (fetchO a = FetchOut.buildErr ∨ fetchO a = FetchOut.transportErr ∨
        (∃ s, fetchO a = FetchOut.statusErr s) ∨ fetchO a = FetchOut.decodeErr) →
      routeWorker fetchO insOk (a :: rest) st = ((routeWorkerStep fetchO insOk a st).1, rest))
    ∧ (∀ fetchO insOk a st rest ds, fetchO a = FetchOut.ok ds →
        routeWorker fetchO insOk (a :: rest) st
          = routeWorker fetchO insOk rest (routeWorkerStep fetchO insOk a st).1)
    ∧ (∀ fetchO insOk a st ds, fetchO a = FetchOut.ok ds →
        insOk a.id (resolveRoutes st.idx a.iata ds) = false →
        WErr.storage ∈ (routeWorkerStep fetchO insOk a st).1.errs)
    ∧ (∀ fetchO insOk rates days rs st,
        (priceWorker fetchO insOk rates days rs st).2 = []) := by
  refine ⟨?_, ?_, ?_, ?_⟩
  · intro fetchO insOk a st rest hcase
    rcases hcase with hc | hc | ⟨s, hc⟩ | hc <;> simp [routeWorker, routeWorkerStep, hc]
  · intro fetchO insOk a st rest ds hc
    simp [routeWorker, routeWorkerStep, hc]
  · intro fetchO insOk a st ds hc hins
    simp [routeWorkerStep, hc, hins]
  · intro fetchO insOk rates days rs
    induction rs with
    | nil => intro st; rfl
    | cons r rest ih => intro st; simp [priceWorker, ih]

/-- Witness for C2: a route worker fed two airports stops after a status error
on the first, leaving the second unconsumed; and a concrete price worker
consumes its whole route list. -/
theorem c2_worker_error_scopes_witness :
    routeWorker (fun _ => FetchOut.statusErr "500 Internal Server Error")
        (fun _ _ => true) [apAAA, apBBB] ⟨[], [], 0, []⟩
      = ((routeWorkerStep (fun _ => FetchOut.statusErr "500 Internal Server Error")
          (fun _ _ => true) apAAA ⟨[], [], 0, []⟩).1, [apBBB])
    ∧ (priceWorker statusOnAB insAlwaysOk ratesEUR [0] [routeAB, routeAC]
        ⟨[], [], []⟩).2 = [] := by
  refine ⟨c2_worker_error_scopes.1 _ _ apAAA _ [apBBB]
    (Or.inr (Or.inr (Or.inl ⟨"500 Internal Server Error", rfl⟩))), ?_⟩
  exact c2_worker_error_scopes.2.2.2 statusOnAB insAlwaysOk ratesEUR [0] [routeAB, routeAC]
    ⟨[], [], []⟩

/-- Counterexample to C2 as stated: a price worker given two routes and one day,
whose first route's fetch answers with a 500 status, records the status error
but then still pulls and processes the second route: the run emits the second
route's progress message and inserts its flight batch (stamped with the second
route's destination id 3), so the worker did not stop consuming routes. -/
theorem c2_worker_stops_consuming_cex :
    (priceWorker statusOnAB insAlwaysOk ratesEUR [0] [routeAB, routeAC]
        ⟨[], [], []⟩).1.errs = [WErr.status "500 Internal Server Error"]
    ∧ (priceWorker statusOnAB insAlwaysOk ratesEUR [0] [routeAB, routeAC]
        ⟨[], [], []⟩).1.msgs = [1]
    ∧ ((priceWorker statusOnAB insAlwaysOk ratesEUR [0] [routeAB, routeAC]
        ⟨[], [], []⟩).1.inserted.map
          (fun p => p.2.map (fun fl => fl.outbound.toAp.id))) = [[3]] := by
  refine ⟨by decide, by decide, by decide⟩

/-- Claim C8: when the route-origin currency has a rate in the table, every
flight of the batch gets exchanged price raw value times rate and is stamped
with the resolved route endpoints' store identifiers, and no error is sent. -/
theorem c8_exchanged_price (rates : List (String × ℚ)) (r : Route)
    (fls : List Flight) (rate : ℚ)
    (h : mapFind rates r.fromAp.country.currency = some rate) :
    exchangeFlights rates r fls = (fls.map (stampFlight rate r), 0)
    ∧ ∀ fl : Flight,
        (stampFlight rate r fl).outbound.price.valueExchanged
            = fl.outbound.price.value * rate
        ∧ (stampFlight rate r fl).outbound.fromAp.id = r.fromAp.id
        ∧ (stampFlight rate r fl).outbound.toAp.id = r.toAp.id := by
  exact ⟨exchangeFlights_hit rates r rate h fls, fun fl => ⟨rfl, rfl, rfl⟩⟩

/-- Witness for C8 at the spec's concrete scenario: index AAA/BBB, the resolved
AAA to BBB route, rate table EUR at 4.3, one flight priced 100 EUR — the
exchanged price is 430 and the flight is stamped with store ids 1 (AAA) and
2 (BBB), the endpoints of the AAA to BBB edge passed to InsertFlights. -/
theorem c8_exchanged_price_witness :
    mapFind ratesEUR routeAB.fromAp.country.currency = some (43 / 10)
    ∧ exchangeFlights ratesEUR routeAB [flight100]
        = ([flight100].map (stampFlight (43 / 10) routeAB), 0)
    ∧ (stampFlight (43 / 10) routeAB flight100).outbound.price.valueExchanged = 430
    ∧ (stampFlight (43 / 10) routeAB flight100).outbound.fromAp.id = 1
    ∧ (stampFlight (43 / 10) routeAB flight100).outbound.toAp.id = 2 := by
  have hc := c8_exchanged_price ratesEUR routeAB [flight100] (43 / 10) rfl
  refine ⟨rfl, hc.1, ?_, by decide, by decide⟩
  rw [(hc.2 flight100).1]
  show (100 : ℚ) * (43 / 10) = 430
  norm_num

/-- Claim C10: a decoded flight whose route-origin currency is missing from the
rate table is left exactly as decoded (exchanged price and both store ids still
zero) yet remains in the batch recorded for InsertFlights, which receives the
origin store id and the full unmodified batch. -/
theorem c10_rate_miss_flight_persisted (rates : List (String × ℚ)) (r : Route)
    (fls : List Flight) (h : mapFind rates r.fromAp.country.currency = none)
    (hdec : ∀ fl ∈ fls, fl.outbound.price.valueExchanged = 0
        ∧ fl.outbound.fromAp.id = 0 ∧ fl.outbound.toAp.id = 0) :
    (exchangeFlights rates r fls).1 = fls
    ∧ (∀ fetchO insOk d st, fetchO r d = FetchOut.ok fls →
        (priceDayStep fetchO insOk rates r d st).1.inserted
          = st.inserted ++ [(r.fromAp.id, fls)])
    ∧ ∀ fl ∈ (exchangeFlights rates r fls).1,
        fl.outbound.price.valueExchanged = 0
        ∧ fl.outbound.fromAp.id = 0 ∧ fl.outbound.toAp.id = 0 := by
  have hm := exchangeFlights_miss rates r h fls
  refine ⟨by rw [hm], ?_, ?_⟩
  · intro fetchO insOk d st hf
    simp only [priceDayStep, hf, hm]
    split <;> rfl
  · intro fl hfl
    rw [hm] at hfl
    exact hdec fl hfl

/-- Witness for C10 at the concrete scenario: empty rate table, the resolved AAA
to BBB route, the single decoded flight. -/
theorem c10_rate_miss_flight_persisted_witness :
    (exchangeFlights [] routeAB [flight100]).1 = [flight100]
    ∧ (priceDayStep alwaysFlight100 insAlwaysOk [] routeAB 0 ⟨[], [], []⟩).1.inserted
      = [(1, [flight100])] := by
  have hc := c10_rate_miss_flight_persisted [] routeAB [flight100] rfl (by decide)
  exact ⟨hc.1, hc.2.1 alwaysFlight100 insAlwaysOk 0 ⟨[], [], []⟩ rfl⟩

/-- Claim C4: for a decoded route (destination reference still zero-valued), the
route-stage resolution populates the destination Airport only if the destination
code is in the index — when it is absent the reference comes out as the
zero-value Airport on both paths of the guard (the guard checks IataFrom, but a
map miss on IataTo also reads the zero value) — and resolution is a total
function processing every route of the response (no runtime failure). -/
theorem c4_unresolved_destination (idx : List (String × Airport))
    (originIata : String) (r : Route) (hdec : r.toAp = Airport.zero) :
    (idxMem idx r.iataTo = false →
      (resolveOne idx originIata r).toAp = Airport.zero)
    ∧ ((resolveOne idx originIata r).toAp ≠ Airport.zero →
        idxMem idx r.iataTo = true)
    ∧ (∀ ds, (resolveRoutes idx originIata ds).length = ds.length) := by
  have hres : ∀ hmem : Bool, idxMem idx (r.setFrom (idxGet idx originIata)).iataFrom = hmem →
      (resolveOne idx originIata r).toAp
        = (if hmem then idxGet idx r.iataTo else r.toAp) := by
    intro hmem hm
    have hz : resolveOne idx originIata r
        = (if idxMem idx (r.setFrom (idxGet idx originIata)).iataFrom
            then (r.setFrom (idxGet idx originIata)).setTo
              (idxGet idx (r.setFrom (idxGet idx originIata)).iataTo)
            else r.setFrom (idxGet idx originIata)) := rfl
    rw [hz, hm]
    cases hmem with
    | true => simp
    | false => simp
  refine ⟨?_, ?_, ?_⟩
  · intro hto
    cases hmf : idxMem idx (r.setFrom (idxGet idx originIata)).iataFrom with
    | false => rw [hres false hmf]; simpa using hdec
    | true => rw [hres true hmf]; simp [idxGet_of_not_mem idx r.iataTo hto]
  · intro hne
    cases hto : idxMem idx r.iataTo with
    | true => rfl
    | false =>
      exfalso
      apply hne
      cases hmf : idxMem idx (r.setFrom (idxGet idx originIata)).iataFrom with
      | false => rw [hres false hmf]; exact hdec
      | true => rw [hres true hmf]; simp [idxGet_of_not_mem idx r.iataTo hto]
  · intro ds
    unfold resolveRoutes
    exact List.length_map ds _

/-- Witness for C4: the scenario index, a decoded route whose destination XYZ is
absent from the index — the resolved route's destination stays the zero value. -/
theorem c4_unresolved_destination_witness :
    idxMem idxAB (Route.mk "AAA" "XYZ" Airport.zero Airport.zero).iataTo = false
    ∧ (resolveOne idxAB "AAA" (Route.mk "AAA" "XYZ" Airport.zero Airport.zero)).toAp
      = Airport.zero := by
  refine ⟨by decide, ?_⟩
  exact (c4_unresolved_destination idxAB "AAA"
    (Route.mk "AAA" "XYZ" Airport.zero Airport.zero) rfl).1 (by decide)

/-- mapSet keeps the all-identifiers-valid invariant when the written airport has
a nonzero identifier. -/
lemma idxAllValid_mapSet (m : List (String × Airport)) (k : String) (v : Airport)
    (hm : idxAllValid m) (hv : Airport.id v ≠ 0) : idxAllValid (mapSet m k v) := by
  induction m with
  | nil =>
    intro p hp
    simp [mapSet] at hp
    rw [hp]
    exact hv
  | cons q rest ih =>
    intro p hp
    by_cases hq : q.1 = k
    · rw [mapSet, if_pos hq] at hp
      rcases List.mem_cons.mp hp with hph | hpt
      · rw [hph]; exact hv
      · exact hm p (List.mem_cons_of_mem q hpt)
    · rw [mapSet, if_neg hq] at hp
      rcases List.mem_cons.mp hp with hph | hpt
      · rw [hph]; exact hm q (List.mem_cons_self q rest)
      · exact ih (fun x hx => hm x (List.mem_cons_of_mem q hx)) p hpt

/-- The airport-stage insert loop only ever stores airports stamped with the
identifier the dao just assigned. -/
lemma fetchAirportsLoop_valid (insA : Airport → Except WErr Int)
    (hins : ∀ a i, insA a = Except.ok i → i ≠ 0) :
    ∀ (as : List Airport) (idx idx' : List (String × Airport)), idxAllValid idx →
      fetchAirportsLoop insA as idx = Except.ok idx' → idxAllValid idx' := by
  intro as
  induction as with
  | nil =>
    intro idx idx' hidx h
    rw [fetchAirportsLoop] at h
    cases h
    exact hidx
  | cons a rest ih =>
    intro idx idx' hidx h
    rw [fetchAirportsLoop] at h
    cases hi : insA a with
    | error e => rw [hi] at h; cases h
    | ok i =>
      rw [hi] at h
      exact ih _ _ (idxAllValid_mapSet idx a.iata (a.setId i) hidx
        (by rw [Airport.id_setId]; exact hins a i hi)) h

/-- Claim C7: when the Airport Stage succeeds, every airport in the index it
returns carries the (nonzero) identifier assigned by the store's Insert, and
every Route-Stage worker step preserves that invariant: the only index write of
a step re-stores the processed airport with its identifier untouched. -/
theorem c7_store_ids_valid :
    (∀ insA : Airport → Except WErr Int, (∀ a i, insA a = Except.ok i → i ≠ 0) →
      ∀ (as : List Airport) (idx' : List (String × Airport)),
        fetchAirportsLoop insA as [] = Except.ok idx' → idxAllValid idx')
    ∧ (∀ fetchO insOk a st, Airport.id a ≠ 0 → idxAllValid st.idx →
        idxAllValid (routeWorkerStep fetchO insOk a st).1.idx) := by
  constructor
  · intro insA hins as idx' h
    exact fetchAirportsLoop_valid insA hins as [] idx' (fun p hp => absurd hp
      (List.not_mem_nil p)) h
  · intro fetchO insOk a st ha hidx
    cases hf : fetchO a with
    | buildErr => simpa [routeWorkerStep, hf] using hidx
    | transportErr => simpa [routeWorkerStep, hf] using hidx
    | statusErr s => simpa [routeWorkerStep, hf] using hidx
    | decodeErr => simpa [routeWorkerStep, hf] using hidx
    | ok ds =>
      simp only [routeWorkerStep, hf]
      exact idxAllValid_mapSet st.idx a.iata _ hidx
        (by rw [Airport.id_setDestinations]; exact ha)

/-- Witness for C7: a one-airport run against a dao assigning identifier 7
yields an index whose every entry has a nonzero identifier. -/
theorem c7_store_ids_valid_witness :
    idxAllValid [(Airport.zero.iata, Airport.zero.setId 7)] := by
  exact c7_store_ids_valid.1 (fun _ => Except.ok 7)
    (fun a i h => by simp only [Except.ok.injEq] at h; omega)
    [Airport.zero] [(Airport.zero.iata, Airport.zero.setId 7)] rfl

/-- A stage trace is a left factor of the configured stage order. -/
lemma runStages_left_factor (outcome : Stage → Bool) :
    ∀ l : List Stage, ∃ rest, l = (runStages outcome l).1 ++ rest := by
  intro l
  induction l with
  | nil => exact ⟨[], rfl⟩
  | cons s ss ih =>
    cases h : outcome s with
    | true =>
      obtain ⟨rest, hr⟩ := ih
      exact ⟨rest, by rw [runStages, if_pos h]; simpa using hr⟩
    | false => exact ⟨ss, by rw [runStages, if_neg (by simp [h])]; rfl⟩

/-- The run completes exactly when every configured stage succeeds. -/
lemma runStages_true_iff (outcome : Stage → Bool) :
    ∀ l : List Stage, (runStages outcome l).2 = true ↔ ∀ s ∈ l, outcome s = true := by
  intro l
  induction l with
  | nil => simp [runStages]
  | cons s ss ih =>
    cases h : outcome s with
    | true => simp [runStages, h, ih]
    | false => simp [runStages, h]

/-- A failed run's trace ends exactly at the first failing stage, all earlier
stages having succeeded. -/
lemma runStages_false_shape (outcome : Stage → Bool) :
    ∀ l : List Stage, (runStages outcome l).2 = false →
      ∃ t x, (runStages outcome l).1 = t ++ [x] ∧ outcome x = false
        ∧ ∀ y ∈ t, outcome y = true := by
  intro l
  induction l with
  | nil => intro h; rw [runStages] at h; cases h
  | cons s ss ih =>
    intro h
    cases hs : outcome s with
    | false =>
      exact ⟨[], s, by rw [runStages, if_neg (by simp [hs])]; rfl, hs, by simp⟩
    | true =>
      rw [runStages, if_pos hs] at h ⊢
      obtain ⟨t, x, ht, hx, hall⟩ := ih h
      refine ⟨s :: t, x, by simp [ht], hx, ?_⟩
      intro y hy
      rcases List.mem_cons.mp hy with hyh | hyt
      · rw [hyh]; exact hs
      · exact hall y hyt

/-- The configured stage order never repeats a stage. -/
lemma pipelineOrder_nodup (clearDb : Bool) : (pipelineOrder clearDb).Nodup := by
  cases clearDb <;> decide

/-- Claim C9: every run of Start attempts the stages in the fixed order
clear-store (only when configured), airports, routes, rates, prices: the
executed trace is a left factor of that order with no stage repeated (no retry
or resume); the run completes exactly when every stage of the order succeeds; a
failed run's trace stops at the first failing stage (the process-fatal abort);
and when clear-store is configured, any fetch activity implies the clear stage
ran first and succeeded. -/
theorem c9_pipeline_stage_order (clearDb : Bool) (outcome : Stage → Bool) :
    (∃ rest, pipelineOrder clearDb = (startModel clearDb outcome).1 ++ rest)
    ∧ (startModel clearDb outcome).1.Nodup
    ∧ ((startModel clearDb outcome).2 = true ↔
        ∀ s ∈ pipelineOrder clearDb, outcome s = true)
    ∧ ((startModel clearDb outcome).2 = false →
        ∃ t x, (startModel clearDb outcome).1 = t ++ [x] ∧ outcome x = false
          ∧ ∀ y ∈ t, outcome y = true)
    ∧ (clearDb = true → Stage.airports ∈ (startModel clearDb outcome).1 →
        outcome Stage.clearStore = true
          ∧ (startModel clearDb outcome).1.head? = some Stage.clearStore) := by
  obtain ⟨rest, hr⟩ := runStages_left_factor outcome (pipelineOrder clearDb)
  refine ⟨⟨rest, hr⟩, ?_, runStages_true_iff outcome (pipelineOrder clearDb),
    runStages_false_shape outcome (pipelineOrder clearDb), ?_⟩
  · have hnd := pipelineOrder_nodup clearDb
    rw [hr] at hnd
    exact hnd.of_append_left
  · intro hclear hmem
    subst hclear
    have hord : pipelineOrder true
        = Stage.clearStore :: [Stage.airports, Stage.routes, Stage.rates, Stage.prices] := rfl
    cases hs : outcome Stage.clearStore with
    | false =>
      exfalso
      rw [startModel, hord, runStages, if_neg (by simp [hs])] at hmem
      simp at hmem
    | true =>
      constructor
      · rfl
      · rw [startModel, hord, runStages, if_pos hs]
        rfl

/-- Witness for C9 at a concrete configuration: clear-store set and every stage
succeeding. -/
theorem c9_pipeline_stage_order_witness :
    (∃ rest, pipelineOrder true = (startModel true (fun _ => true)).1 ++ rest)
    ∧ (startModel true (fun _ => true)).1.Nodup
    ∧ ((startModel true (fun _ => true)).2 = true ↔
        ∀ s ∈ pipelineOrder true, (fun _ => true) s = true)
    ∧ ((startModel true (fun _ => true)).2 = false →
        ∃ t x, (startModel true (fun _ => true)).1 = t ++ [x]
          ∧ (fun _ => true) x = false ∧ ∀ y ∈ t, (fun _ => true) y = true)
    ∧ (true = true → Stage.airports ∈ (startModel true (fun _ => true)).1 →
        (fun _ => true) Stage.clearStore = true
          ∧ (startModel true (fun _ => true)).1.head? = some Stage.clearStore) := by
  exact c9_pipeline_stage_order true (fun _ => true)

end FlightsAnalyzer
